import Mathlib

/-!
# Verification of the DNS split-traffic forwarder core

A shallow embedding, in Lean 4, of the query pipeline of the
`doh-autoproxy` DNS forwarder: the ECS (EDNS Client Subnet) mutator
(`ensureECS` in `internal/client/doh.go`), the routing decision cascade
(`routeInternal` in `internal/router/router.go` together with the geo-data
lookups of `internal/router/geodata.go`), the race coordinator
(`RaceResolve` in the `client` package), and the per-upstream statistics
decorator (`internal/client/stats.go`).

Modelling conventions:
* DNS messages are records with the fields the core inspects or mutates
  (id, rcode, question, answer, extra); records the core never touches are
  collapsed into opaque constructors.
* Go byte slices holding IP addresses become lists of naturals; `net.IP.To4`
  is translated faithfully (a 4-byte slice, or a 16-byte IPv4-mapped slice).
* External collaborators (the Go standard library IP parser, the compiled
  regular expressions, the two geo databases, and the upstream race
  outcomes) are parameters of the embedding, gathered in `RouterEnv`:
  the router treats each of them as an oracle and the theorems quantify
  over them.
* Concurrency in `RaceResolve` is modelled by the time-ordered trace of
  task completion events the select loop observes, with the 5-second
  timer and the caller deadline made explicit.
-/

/-- A DNS question record: name, type, and class (Go `dns.Question`). -/
structure Question where
  name : String
  qtype : Nat
  qclass : Nat
deriving DecidableEq, Repr

/-- A Go `net.IP`: a byte slice, either 4 or 16 bytes long for real
addresses. Modelled as a plain list of byte values. -/
structure GoIP where
  bytes : List Nat
deriving DecidableEq, Repr

/-- Go `net.IP.To4`: returns the 4-byte form when the IP is IPv4
(a 4-byte slice or a 16-byte IPv4-in-IPv6 mapped slice), else nil. -/
def GoIP.to4 (ip : GoIP) : Option GoIP :=
  if ip.bytes.length = 4 then some ip
  else if ip.bytes.length = 16 ∧
          ip.bytes.take 12 = [0, 0, 0, 0, 0, 0, 0, 0, 0, 0, 0xff, 0xff] then
    some ⟨ip.bytes.drop 12⟩
  else none

/-- DNS RR type numbers used by the core. -/
def typeA : Nat := 1

/-- RR type number of AAAA records. -/
def typeAAAA : Nat := 28

/-- DNS class IN. -/
def classINET : Nat := 1

/-- Go `dns.RR_Header`: the header shared by all resource records. -/
structure RRHeader where
  name : String
  rrtype : Nat
  rrclass : Nat
  ttl : Nat
deriving DecidableEq, Repr

/-- A resource record in an answer section. The router only type-switches
on `dns.A` and `dns.AAAA`; every other concrete RR type is collapsed. -/
inductive RR where
  | A (hdr : RRHeader) (a : GoIP)
  | AAAA (hdr : RRHeader) (aaaa : GoIP)
  | other (hdr : RRHeader) (rdata : String)
deriving DecidableEq, Repr

/-- EDNS0SUBNET option code (8). -/
def EDNS0SUBNET : Nat := 8

/-- Go `dns.EDNS0_SUBNET`: the client-subnet EDNS option. -/
structure EDNS0Subnet where
  code : Nat
  family : Nat
  sourceNetmask : Nat
  address : List Nat
deriving DecidableEq, Repr

/-- An EDNS option inside an OPT record. Options other than
`EDNS0_SUBNET` are collapsed into an opaque constructor carrying their
option code and payload. -/
inductive EDNS0 where
  | subnet (s : EDNS0Subnet)
  | other (code : Nat) (payload : String)
deriving DecidableEq, Repr

/-- Go side `o.Option()`: each concrete option type reports its fixed
option code (`EDNS0_SUBNET.Option()` returns the constant 8). -/
def EDNS0.optionCode : EDNS0 → Nat
  | .subnet _ => EDNS0SUBNET
  | .other c _ => c

/-- A record of the additional section: either the OPT pseudo-record
(payload size, DO bit, option list) or any other record. -/
inductive ExtraRR where
  | opt (udpsize : Nat) (doBit : Bool) (options : List EDNS0)
  | other (hdr : RRHeader)
deriving DecidableEq, Repr

/-- A DNS message, restricted to the fields the core reads or writes. -/
structure Msg where
  id : Nat
  rcode : Nat
  question : List Question
  answer : List RR
  extra : List ExtraRR
deriving DecidableEq, Repr

/-- Go `(*dns.Msg).IsEdns0()` reports whether the additional section holds
an OPT record (it returns the first one found). -/
def hasOpt : List ExtraRR → Bool
  | [] => false
  | .opt _ _ _ :: _ => true
  | .other _ :: rest => hasOpt rest

/-- The first OPT record of the additional section, as found by
`IsEdns0()`: payload size, DO bit and option list. -/
def firstOpt : List ExtraRR → Option (Nat × Bool × List EDNS0)
  | [] => none
  | .opt u d o :: _ => some (u, d, o)
  | .other _ :: rest => firstOpt rest

/-- In-place mutation of the option list of the first OPT record
(`opt.Option = newOptions` through the `IsEdns0()` pointer): every other
record is untouched, and a list without an OPT record is unchanged. -/
def updateFirstOpt (f : List EDNS0 → List EDNS0) : List ExtraRR → List ExtraRR
  | [] => []
  | .opt u d o :: rest => .opt u d (f o) :: rest
  | .other h :: rest => .other h :: updateFirstOpt f rest

/-- The filter `ensureECS` applies to the existing option list: keep an
option iff its code is not `EDNS0_SUBNET`. -/
def nonSubnetOpt (o : EDNS0) : Bool := o.optionCode ≠ EDNS0SUBNET

/-- The fresh `dns.EDNS0_SUBNET` option `ensureECS` builds for a parsed
ECS IP: IPv4 gives family 1 / netmask 24 / the 4 bytes, IPv6 gives
family 2 / netmask 56 / the 16 bytes. -/
def subnetOptionFor (ip : GoIP) : EDNS0 :=
  match ip.to4 with
  | some ip4 => .subnet { code := EDNS0SUBNET, family := 1, sourceNetmask := 24, address := ip4.bytes }
  | none => .subnet { code := EDNS0SUBNET, family := 2, sourceNetmask := 56, address := ip.bytes }

/-- Function `ensureECS` (internal/client/doh.go): given the configured ECS IP
literal, return the mutated query. `parseIP` is the Go standard library
`net.ParseIP`, an external collaborator passed as a parameter. Empty or
unparseable literal is a no-op; otherwise the message is given an OPT
record when absent (`SetEdns0(4096, false)` appends it to the additional
section), existing `EDNS0_SUBNET` options of the first OPT record are
filtered out and the fresh option is appended. -/
def ensureECS (parseIP : String → Option GoIP) (req : Msg) (ecsIP : String) : Msg :=
  if ecsIP = "" then req
  else
    match parseIP ecsIP with
    | none => req
    | some ip =>
      let req1 :=
        if hasOpt req.extra then req
        else { req with extra := req.extra ++ [ExtraRR.opt 4096 false []] }
      { req1 with
          extra := updateFirstOpt
            (fun opts => opts.filter nonSubnetOpt ++ [subnetOptionFor ip]) req1.extra }

theorem hasOpt_append_opt (l : List ExtraRR) (u : Nat) (d : Bool) (o : List EDNS0) :
    hasOpt (l ++ [ExtraRR.opt u d o]) = true := by
  induction l with
  | nil => rfl
  | cons x rest ih => cases x <;> simp [hasOpt, ih]

theorem hasOpt_updateFirstOpt (f : List EDNS0 → List EDNS0) (l : List ExtraRR) :
    hasOpt (updateFirstOpt f l) = hasOpt l := by
  induction l with
  | nil => rfl
  | cons x rest ih => cases x <;> simp [hasOpt, updateFirstOpt, ih]

theorem updateFirstOpt_updateFirstOpt (f g : List EDNS0 → List EDNS0) (l : List ExtraRR) :
    updateFirstOpt g (updateFirstOpt f l) = updateFirstOpt (fun o => g (f o)) l := by
  induction l with
  | nil => rfl
  | cons x rest ih => cases x <;> simp [updateFirstOpt, ih]

theorem updateFirstOpt_congr (f g : List EDNS0 → List EDNS0) (l : List ExtraRR)
    (h : ∀ o, f o = g o) : updateFirstOpt f l = updateFirstOpt g l := by
  induction l with
  | nil => rfl
  | cons x rest ih => cases x <;> simp [updateFirstOpt, h, ih]

theorem nonSubnetOpt_subnetOptionFor (ip : GoIP) :
    nonSubnetOpt (subnetOptionFor ip) = false := by
  unfold subnetOptionFor
  cases ip.to4 <;> simp [nonSubnetOpt, EDNS0.optionCode]

theorem filter_nonSubnetOpt_idem (l : List EDNS0) :
    (l.filter nonSubnetOpt).filter nonSubnetOpt = l.filter nonSubnetOpt := by
  induction l with
  | nil => rfl
  | cons o rest ih =>
    by_cases h : nonSubnetOpt o = true
    · simp [List.filter, h, ih]
    · simp only [Bool.not_eq_true] at h
      simp [List.filter, h, ih]

/-- Shape of `ensureECS` when the ECS literal parses. -/
theorem ensureECS_some (parseIP : String → Option GoIP) (req : Msg) (ecsIP : String)
    (ip : GoIP) (h0 : ¬ ecsIP = "") (hp : parseIP ecsIP = some ip) :
    ensureECS parseIP req ecsIP =
      { (if hasOpt req.extra then req
         else { req with extra := req.extra ++ [ExtraRR.opt 4096 false []] }) with
        extra := updateFirstOpt
          (fun opts => opts.filter nonSubnetOpt ++ [subnetOptionFor ip])
          ((if hasOpt req.extra then req
            else { req with extra := req.extra ++ [ExtraRR.opt 4096 false []] }).extra) } := by
  simp [ensureECS, h0, hp]

theorem hasOpt_ensureECS_some (parseIP : String → Option GoIP) (req : Msg) (ecsIP : String)
    (ip : GoIP) (h0 : ¬ ecsIP = "") (hp : parseIP ecsIP = some ip) :
    hasOpt (ensureECS parseIP req ecsIP).extra = true := by
  rw [ensureECS_some parseIP req ecsIP ip h0 hp]
  by_cases h : hasOpt req.extra
  · simp [h, hasOpt_updateFirstOpt]
  · simp [h, hasOpt_updateFirstOpt, hasOpt_append_opt]

/-- C7: the ECS mutator is idempotent — applying it a second time with the
same ECS IP string returns the message of the first application
unchanged. -/
theorem ensureECS_idempotent (parseIP : String → Option GoIP) (req : Msg) (ecsIP : String) :
    ensureECS parseIP (ensureECS parseIP req ecsIP) ecsIP = ensureECS parseIP req ecsIP := by
  by_cases h0 : ecsIP = ""
  · simp [ensureECS, h0]
  · cases hp : parseIP ecsIP with
    | none => simp [ensureECS, h0, hp]
    | some ip =>
      have hopt := hasOpt_ensureECS_some parseIP req ecsIP ip h0 hp
      rw [ensureECS_some parseIP (ensureECS parseIP req ecsIP) ecsIP ip h0 hp]
      rw [if_pos hopt]
      rw [ensureECS_some parseIP req ecsIP ip h0 hp]
      cases hq : hasOpt req.extra <;>
        simp only [hq, if_true, if_false, Bool.false_eq_true, ite_false, ite_true] <;>
        · congr 1
          rw [updateFirstOpt_updateFirstOpt]
          refine updateFirstOpt_congr _ _ _ (fun o => ?_)
          rw [List.filter_append, filter_nonSubnetOpt_idem]
          simp [List.filter, nonSubnetOpt_subnetOptionFor]

/-- Keep an option iff it is an `EDNS0_SUBNET` option (used to state
"exactly one subnet option" extensionally). -/
def isSubnetOpt (o : EDNS0) : Bool := o.optionCode = EDNS0SUBNET

theorem firstOpt_updateFirstOpt (f : List EDNS0 → List EDNS0) (l : List ExtraRR) :
    firstOpt (updateFirstOpt f l)
      = Option.map (fun p => (p.1, p.2.1, f p.2.2)) (firstOpt l) := by
  induction l with
  | nil => rfl
  | cons x rest ih => cases x <;> simp [firstOpt, updateFirstOpt, ih]

theorem updateFirstOpt_append_no_opt (f : List EDNS0 → List EDNS0)
    (l l2 : List ExtraRR) (h : hasOpt l = false) :
    updateFirstOpt f (l ++ l2) = l ++ updateFirstOpt f l2 := by
  induction l with
  | nil => rfl
  | cons x rest ih =>
    cases x with
    | opt u d o => simp [hasOpt] at h
    | other hd => simp [hasOpt] at h; simp [updateFirstOpt, ih h]

theorem firstOpt_append_no_opt (l l2 : List ExtraRR) (h : hasOpt l = false) :
    firstOpt (l ++ l2) = firstOpt l2 := by
  induction l with
  | nil => rfl
  | cons x rest ih =>
    cases x with
    | opt u d o => simp [hasOpt] at h
    | other hd => simp [hasOpt] at h; simp [firstOpt, ih h]

theorem firstOpt_of_hasOpt (l : List ExtraRR) (h : hasOpt l = true) :
    ∃ u d o, firstOpt l = some (u, d, o) := by
  induction l with
  | nil => simp [hasOpt] at h
  | cons x rest ih =>
    cases x with
    | opt u d o => exact ⟨u, d, o, rfl⟩
    | other hd => simp [hasOpt] at h; simpa [firstOpt] using ih h

theorem isSubnetOpt_eq_not_nonSubnetOpt (o : EDNS0) :
    isSubnetOpt o = ! nonSubnetOpt o := by
  unfold isSubnetOpt nonSubnetOpt
  by_cases h : o.optionCode = EDNS0SUBNET <;> simp [h]

theorem filter_subnet_of_filter_nonSubnet (l : List EDNS0) :
    (l.filter nonSubnetOpt).filter isSubnetOpt = [] := by
  induction l with
  | nil => rfl
  | cons o rest ih =>
    cases h : nonSubnetOpt o with
    | false => simp [List.filter_cons, h, ih]
    | true =>
      have h2 : isSubnetOpt o = false := by
        rw [isSubnetOpt_eq_not_nonSubnetOpt, h]
        rfl
      simp [List.filter_cons, h, h2, ih]

theorem isSubnetOpt_subnet (s : EDNS0Subnet) :
    isSubnetOpt (EDNS0.subnet s) = true := by
  simp [isSubnetOpt, EDNS0.optionCode]

theorem hasOpt_of_firstOpt_some (l : List ExtraRR) (u : Nat) (d : Bool)
    (o : List EDNS0) (h : firstOpt l = some (u, d, o)) : hasOpt l = true := by
  induction l with
  | nil => simp [firstOpt] at h
  | cons x rest ih =>
    cases x with
    | opt a b c => rfl
    | other hd => exact ih (by simpa [firstOpt] using h)

/-- The option list of the first OPT record after a successful
`ensureECS` mutation: the old list (of the OPT record that was found, or
the empty list of the freshly created one) minus subnet options, plus the
fresh subnet option; and a fresh OPT record carries payload 4096, DO=0. -/
theorem ensureECS_firstOpt (parseIP : String → Option GoIP) (req : Msg) (ecsIP : String)
    (ip : GoIP) (h0 : ¬ ecsIP = "") (hp : parseIP ecsIP = some ip) :
    (∀ u d o, firstOpt req.extra = some (u, d, o) →
      firstOpt (ensureECS parseIP req ecsIP).extra
        = some (u, d, o.filter nonSubnetOpt ++ [subnetOptionFor ip]))
    ∧ (hasOpt req.extra = false →
      firstOpt (ensureECS parseIP req ecsIP).extra
        = some (4096, false, [subnetOptionFor ip])) := by
  rw [ensureECS_some parseIP req ecsIP ip h0 hp]
  constructor
  · intro u d o hfo
    have hopt : hasOpt req.extra = true := hasOpt_of_firstOpt_some req.extra u d o hfo
    simp only [hopt, if_true, ite_true]
    rw [firstOpt_updateFirstOpt, hfo]
    rfl
  · intro hq
    simp only [hq, Bool.false_eq_true, if_false, ite_false]
    rw [updateFirstOpt_append_no_opt _ _ _ hq, firstOpt_append_no_opt _ _ hq]
    rfl

/-- C8: empty or unparseable ECS IP is a no-op; a parseable IPv4
(resp. IPv6) ECS IP leaves the message with a first OPT record whose
option list carries exactly one `EDNS0_SUBNET` option — family 1,
source netmask 24 and the 4 address bytes for IPv4; family 2, source
netmask 56 and the 16 address bytes for IPv6 — with payload size 4096
and DO=0 when the OPT record had to be created, regardless of any subnet
options the incoming message carried. -/
theorem ensureECS_stamping (parseIP : String → Option GoIP) (req : Msg) (ecsIP : String) :
    ((ecsIP = "" ∨ parseIP ecsIP = none) → ensureECS parseIP req ecsIP = req)
    ∧ (∀ ip ip4, ¬ ecsIP = "" → parseIP ecsIP = some ip → ip.to4 = some ip4 →
        ∃ u d opts, firstOpt (ensureECS parseIP req ecsIP).extra = some (u, d, opts)
          ∧ opts.filter isSubnetOpt
              = [EDNS0.subnet ⟨EDNS0SUBNET, 1, 24, ip4.bytes⟩]
          ∧ (hasOpt req.extra = false → u = 4096 ∧ d = false))
    ∧ (∀ ip, ¬ ecsIP = "" → parseIP ecsIP = some ip → ip.to4 = none →
        ∃ u d opts, firstOpt (ensureECS parseIP req ecsIP).extra = some (u, d, opts)
          ∧ opts.filter isSubnetOpt
              = [EDNS0.subnet ⟨EDNS0SUBNET, 2, 56, ip.bytes⟩]
          ∧ (hasOpt req.extra = false → u = 4096 ∧ d = false)) := by
  refine ⟨?_, ?_, ?_⟩
  · rintro (h0 | hp)
    · simp [ensureECS, h0]
    · by_cases h0 : ecsIP = "" <;> simp [ensureECS, h0, hp]
  · intro ip ip4 h0 hp h4
    have hsub : subnetOptionFor ip = EDNS0.subnet ⟨EDNS0SUBNET, 1, 24, ip4.bytes⟩ := by
      unfold subnetOptionFor
      rw [h4]
    have hfo := ensureECS_firstOpt parseIP req ecsIP ip h0 hp
    cases hq : hasOpt req.extra with
    | true =>
      obtain ⟨u, d, o, ho⟩ := firstOpt_of_hasOpt req.extra hq
      refine ⟨u, d, _, hfo.1 u d o ho, ?_, by simp [hq]⟩
      rw [List.filter_append, filter_subnet_of_filter_nonSubnet]
      simp [List.filter, hsub, isSubnetOpt_subnet]
    | false =>
      refine ⟨4096, false, _, hfo.2 hq, ?_, by simp⟩
      simp [List.filter, hsub, isSubnetOpt_subnet]
  · intro ip h0 hp h6
    have hsub : subnetOptionFor ip = EDNS0.subnet ⟨EDNS0SUBNET, 2, 56, ip.bytes⟩ := by
      unfold subnetOptionFor
      rw [h6]
    have hfo := ensureECS_firstOpt parseIP req ecsIP ip h0 hp
    cases hq : hasOpt req.extra with
    | true =>
      obtain ⟨u, d, o, ho⟩ := firstOpt_of_hasOpt req.extra hq
      refine ⟨u, d, _, hfo.1 u d o ho, ?_, by simp [hq]⟩
      rw [List.filter_append, filter_subnet_of_filter_nonSubnet]
      simp [List.filter, hsub, isSubnetOpt_subnet]
    | false =>
      refine ⟨4096, false, _, hfo.2 hq, ?_, by simp⟩
      simp [List.filter, hsub, isSubnetOpt_subnet]

theorem isSubnetOpt_subnetOptionFor (ip : GoIP) :
    isSubnetOpt (subnetOptionFor ip) = true := by
  unfold subnetOptionFor
  cases ip.to4 <;> simp [isSubnetOpt_subnet]

theorem filter_nonSubnet_subnetOptionFor (ip : GoIP) :
    nonSubnetOpt (subnetOptionFor ip) = false := nonSubnetOpt_subnetOptionFor ip

/-- C10: the ECS mutation is frame-bounded — id, rcode, question and
answer are untouched; the non-subnet options of the first OPT record
survive in their original relative order together with the OPT record
payload size and DO bit; and the additional section changes only by
rewriting the option list of the first OPT record, creating it (payload
4096, DO=0) when absent. -/
theorem ensureECS_frame (parseIP : String → Option GoIP) (req : Msg) (ecsIP : String) :
    (ensureECS parseIP req ecsIP).id = req.id
    ∧ (ensureECS parseIP req ecsIP).rcode = req.rcode
    ∧ (ensureECS parseIP req ecsIP).question = req.question
    ∧ (ensureECS parseIP req ecsIP).answer = req.answer
    ∧ (∀ u d o, firstOpt req.extra = some (u, d, o) →
        ∃ o2, firstOpt (ensureECS parseIP req ecsIP).extra = some (u, d, o2)
          ∧ o2.filter nonSubnetOpt = o.filter nonSubnetOpt)
    ∧ ((ensureECS parseIP req ecsIP).extra = req.extra
       ∨ ∃ e, isSubnetOpt e = true
          ∧ (ensureECS parseIP req ecsIP).extra
              = updateFirstOpt (fun opts => opts.filter nonSubnetOpt ++ [e])
                  (req.extra ++ if hasOpt req.extra then [] else [ExtraRR.opt 4096 false []])) := by
  by_cases h0 : ecsIP = ""
  · refine ⟨by simp [ensureECS, h0], by simp [ensureECS, h0], by simp [ensureECS, h0],
      by simp [ensureECS, h0], ?_, Or.inl (by simp [ensureECS, h0])⟩
    intro u d o hfo
    exact ⟨o, by simp [ensureECS, h0, hfo], rfl⟩
  · cases hp : parseIP ecsIP with
    | none =>
      refine ⟨by simp [ensureECS, h0, hp], by simp [ensureECS, h0, hp],
        by simp [ensureECS, h0, hp], by simp [ensureECS, h0, hp], ?_,
        Or.inl (by simp [ensureECS, h0, hp])⟩
      intro u d o hfo
      exact ⟨o, by simp [ensureECS, h0, hp, hfo], rfl⟩
    | some ip =>
      have hshape := ensureECS_some parseIP req ecsIP ip h0 hp
      have hfields :
          (ensureECS parseIP req ecsIP).id = req.id
          ∧ (ensureECS parseIP req ecsIP).rcode = req.rcode
          ∧ (ensureECS parseIP req ecsIP).question = req.question
          ∧ (ensureECS parseIP req ecsIP).answer = req.answer := by
        rw [hshape]
        cases hq : hasOpt req.extra <;> simp
      refine ⟨hfields.1, hfields.2.1, hfields.2.2.1, hfields.2.2.2, ?_, Or.inr ?_⟩
      · intro u d o hfo
        refine ⟨o.filter nonSubnetOpt ++ [subnetOptionFor ip],
          (ensureECS_firstOpt parseIP req ecsIP ip h0 hp).1 u d o hfo, ?_⟩
        rw [List.filter_append, filter_nonSubnetOpt_idem]
        simp [List.filter_cons, filter_nonSubnet_subnetOptionFor]
      · refine ⟨subnetOptionFor ip, isSubnetOpt_subnetOptionFor ip, ?_⟩
        rw [hshape]
        cases hq : hasOpt req.extra <;> simp [hq]

/-- Concrete stand-in for Go `net.ParseIP` on the literals the witnesses
use (Go returns the 16-byte IPv4-mapped form for dotted quads). -/
def testParseIP : String → Option GoIP := fun s =>
  if s = "1.2.3.4" then some ⟨[0, 0, 0, 0, 0, 0, 0, 0, 0, 0, 255, 255, 1, 2, 3, 4]⟩
  else if s = "10.0.0.1" then some ⟨[0, 0, 0, 0, 0, 0, 0, 0, 0, 0, 255, 255, 10, 0, 0, 1]⟩
  else if s = "203.0.113.0" then some ⟨[0, 0, 0, 0, 0, 0, 0, 0, 0, 0, 255, 255, 203, 0, 113, 0]⟩
  else if s = "2001:db8::1" then some ⟨[32, 1, 13, 184, 0, 0, 0, 0, 0, 0, 0, 0, 0, 0, 0, 1]⟩
  else none

/-- A one-question query with no additional section. -/
def msgPlain : Msg :=
  { id := 7, rcode := 0, question := [⟨"example.org.", 1, 1⟩], answer := [], extra := [] }

/-- A one-question query already carrying an OPT record with a foreign
option and a stale subnet option. -/
def msgWithSubnet : Msg :=
  { id := 9, rcode := 0, question := [⟨"example.org.", 1, 1⟩], answer := [],
    extra := [ExtraRR.opt 512 true
      [EDNS0.other 10 "cookie", EDNS0.subnet ⟨EDNS0SUBNET, 1, 24, [9, 9, 9, 9]⟩]] }

theorem ensureECS_stamping_witness :
    ensureECS testParseIP msgWithSubnet "bogus" = msgWithSubnet
    ∧ (∃ u d opts,
        firstOpt (ensureECS testParseIP msgWithSubnet "203.0.113.0").extra = some (u, d, opts)
        ∧ opts.filter isSubnetOpt = [EDNS0.subnet ⟨EDNS0SUBNET, 1, 24, [203, 0, 113, 0]⟩]
        ∧ (hasOpt msgWithSubnet.extra = false → u = 4096 ∧ d = false))
    ∧ (∃ u d opts,
        firstOpt (ensureECS testParseIP msgPlain "2001:db8::1").extra = some (u, d, opts)
        ∧ opts.filter isSubnetOpt
            = [EDNS0.subnet ⟨EDNS0SUBNET, 2, 56, [32, 1, 13, 184, 0, 0, 0, 0, 0, 0, 0, 0, 0, 0, 0, 1]⟩]
        ∧ (hasOpt msgPlain.extra = false → u = 4096 ∧ d = false)) :=
  ⟨(ensureECS_stamping testParseIP msgWithSubnet "bogus").1 (Or.inr (by decide)),
   (ensureECS_stamping testParseIP msgWithSubnet "203.0.113.0").2.1
     ⟨[0, 0, 0, 0, 0, 0, 0, 0, 0, 0, 255, 255, 203, 0, 113, 0]⟩ ⟨[203, 0, 113, 0]⟩
     (by decide) (by decide) (by decide),
   (ensureECS_stamping testParseIP msgPlain "2001:db8::1").2.2
     ⟨[32, 1, 13, 184, 0, 0, 0, 0, 0, 0, 0, 0, 0, 0, 0, 1]⟩
     (by decide) (by decide) (by decide)⟩

theorem ensureECS_frame_witness :
    (ensureECS testParseIP msgWithSubnet "1.2.3.4").id = msgWithSubnet.id
    ∧ (ensureECS testParseIP msgWithSubnet "1.2.3.4").question = msgWithSubnet.question
    ∧ (∃ o2, firstOpt (ensureECS testParseIP msgWithSubnet "1.2.3.4").extra
          = some (512, true, o2)
        ∧ o2.filter nonSubnetOpt
            = [EDNS0.other 10 "cookie", EDNS0.subnet ⟨EDNS0SUBNET, 1, 24, [9, 9, 9, 9]⟩].filter nonSubnetOpt) :=
  ⟨(ensureECS_frame testParseIP msgWithSubnet "1.2.3.4").1,
   (ensureECS_frame testParseIP msgWithSubnet "1.2.3.4").2.2.1,
   (ensureECS_frame testParseIP msgWithSubnet "1.2.3.4").2.2.2.2.1 512 true
     [EDNS0.other 10 "cookie", EDNS0.subnet ⟨EDNS0SUBNET, 1, 24, [9, 9, 9, 9]⟩] (by decide)⟩

/-- The two upstream pools the router races against. -/
inductive PoolTag where
  | cn
  | overseas
deriving DecidableEq, Repr

/-- A compiled regex rule (router.RegexRule): the compiled pattern is an
external collaborator, modelled by its `MatchString` function. -/
structure RegexRule where
  matchString : String → Bool
  target : String

/-- Read-only environment of the router: the immutable config maps, the
compiled regex rules, the two geo databases (by their lookup functions,
`geosite.LookupCodes` and `geoip.LookupCode`), the standard library IP
parser, and the outcome of racing the query against each pool
(`client.RaceResolve` on the clients of that pool). -/
structure RouterEnv where
  hosts : String → Option String
  rules : String → Option String
  regexRules : List RegexRule
  siteCodes : String → List String
  ipCodes : GoIP → List String
  parseIP : String → Option GoIP
  race : PoolTag → Except String Msg

/-- Go `strings.ToLower` (domains here are ASCII, so per-character
lowering matches Go). Written over the character list so that it reduces
in the kernel. -/
def goToLower (s : String) : String := ⟨s.data.map Char.toLower⟩

/-- Go `strings.ToUpper`, written over the character list. -/
def goToUpper (s : String) : String := ⟨s.data.map Char.toUpper⟩

/-- Go `strings.TrimSuffix(s, ".")`: drop one trailing dot if present. -/
def trimSuffixDot (s : String) : String :=
  if s.data.getLast? = some '.' then ⟨s.data.dropLast⟩ else s

/-- The loop body of `GeoDataManager.LookupGeoSite`: scan the category
codes, return "cn" on the first code equal to "cn" case-insensitively,
else the empty string. -/
def geoSiteScan : List String → String
  | [] => ""
  | c :: rest => if goToLower c = "cn" then "cn" else geoSiteScan rest

/-- Method `GeoDataManager.LookupGeoSite` (internal/router/geodata.go). -/
def LookupGeoSite (env : RouterEnv) (domain : String) : String :=
  geoSiteScan (env.siteCodes domain)

/-- The loop body of `GeoDataManager.IsCNIP`: scan the country codes for
one equal to "CN" case-insensitively. -/
def geoIPScan : List String → Bool
  | [] => false
  | c :: rest => if goToUpper c = "CN" then true else geoIPScan rest

/-- Method `GeoDataManager.IsCNIP` (internal/router/geodata.go). -/
def IsCNIP (env : RouterEnv) (ip : GoIP) : Bool :=
  geoIPScan (env.ipCodes ip)

/-- The lowercased, trailing-dot-stripped question name the router keys
all of its lookups on. -/
def routeQName (q0 : Question) : String := goToLower (trimSuffixDot q0.name)

/-- Go `new(dns.Msg)` followed by `m.SetReply(req)` (miekg/dns `msg.go`):
the fresh reply copies the request id, has rcode NOERROR, and its
question section is the one-element list holding only the FIRST request
question (`dns.Question{request.Question[0]}`) when the request has any
question at all. -/
def setReply (req : Msg) : Msg :=
  { id := req.id
    rcode := 0
    question := match req.question with
                | q :: _ => [q]
                | [] => []
    answer := []
    extra := [] }

/-- Router errors surfaced by `routeInternal`. -/
inductive RouteErr where
  | noQuestion
  | invalidHostsEntry (ipStr q : String)
  | race (e : String)
  | geoIPInitialFailed (e : String)
deriving DecidableEq, Repr

/-- Go `resp, err := client.RaceResolve(ctx, req, pool); return resp, prov, err`:
on success the winning response, on failure a nil response and the race
error, always under the given provenance label. -/
def raceStep (env : RouterEnv) (pool : PoolTag) (prov : String) :
    Option Msg × String × Option RouteErr :=
  match env.race pool with
  | .ok resp => (some resp, prov, none)
  | .error e => (none, prov, some (.race e))

/-- The loop over `resp.Answer` that extracts `resolvedIP`: the first
record that type-switches to `*dns.A` or `*dns.AAAA` yields its address. -/
def firstAorAAAA : List RR → Option GoIP
  | [] => none
  | .A _ a :: _ => some a
  | .AAAA _ a :: _ => some a
  | .other _ _ :: rest => firstAorAAAA rest

/-- Step 5/6 of the cascade (GeoIP fallback, router.go lines 224-246):
race the overseas pool; on failure surface the wrapped error under
"GeoIP(Fail)"; otherwise inspect the first A/AAAA answer address and, if
it is a CN IP, discard the overseas response and return the CN race
result under "GeoIP(CN)"; otherwise return the overseas response under
"GeoIP(Overseas)". -/
def geoIPStep (env : RouterEnv) : Option Msg × String × Option RouteErr :=
  match env.race .overseas with
  | .error e => (none, "GeoIP(Fail)", some (.geoIPInitialFailed e))
  | .ok resp =>
    match firstAorAAAA resp.answer with
    | some resolvedIP =>
      if IsCNIP env resolvedIP then raceStep env .cn "GeoIP(CN)"
      else (some resp, "GeoIP(Overseas)", none)
    | none => (some resp, "GeoIP(Overseas)", none)

/-- Step 4 of the cascade (GeoSite): a non-empty `LookupGeoSite` result
selects the CN pool when it lowercases to "cn" and the overseas pool
otherwise; an empty result falls through to the GeoIP fallback. -/
def geoSiteStep (env : RouterEnv) (qName : String) :
    Option Msg × String × Option RouteErr :=
  let geoSiteRule := LookupGeoSite env qName
  if geoSiteRule ≠ "" then
    if goToLower geoSiteRule = "cn" then raceStep env .cn "GeoSite(CN)"
    else raceStep env .overseas "GeoSite(Overseas)"
  else geoIPStep env

/-- Step 3 of the cascade (regex rules, in configuration order): the
first matching rule whose target lowercases to "cn" or "overseas" races
that pool; matching rules with any other target are skipped (the Go
switch has no default case), and exhaustion falls through to GeoSite. -/
def regexStep (env : RouterEnv) (qName : String) :
    List RegexRule → Option Msg × String × Option RouteErr
  | [] => geoSiteStep env qName
  | rr :: rest =>
    if rr.matchString qName then
      if goToLower rr.target = "cn" then raceStep env .cn "Rule(Regex/CN)"
      else if goToLower rr.target = "overseas" then raceStep env .overseas "Rule(Regex/Overseas)"
      else regexStep env qName rest
    else regexStep env qName rest

/-- Step 2 of the cascade (exact rules): a hit whose target lowercases to
"cn" or "overseas" races that pool; a hit with an unknown target falls
out of the switch (empty default case) and continues with the regex
rules, as does a miss. -/
def ruleStep (env : RouterEnv) (qName : String) :
    Option Msg × String × Option RouteErr :=
  match env.rules qName with
  | some rule =>
    if goToLower rule = "cn" then raceStep env .cn "Rule(CN)"
    else if goToLower rule = "overseas" then raceStep env .overseas "Rule(Overseas)"
    else regexStep env qName env.regexRules
  | none => regexStep env qName env.regexRules

/-- Method `(*Router).routeInternal` (internal/router/router.go lines 162-247):
the full decision cascade, returning the response, the provenance label
and the error. Step 1 (hosts override) synthesizes a single-answer reply
via `SetReply` — A record for an IPv4 override, AAAA for IPv6, TTL 60,
class IN — and an unparseable override literal is an immediate error. -/
def routeInternal (env : RouterEnv) (req : Msg) :
    Option Msg × String × Option RouteErr :=
  let q0 := req.question.headD ⟨"", 0, 0⟩
  let qName := routeQName q0
  match env.hosts qName with
  | some ipStr =>
    match env.parseIP ipStr with
    | none => (none, "Hosts", some (.invalidHostsEntry ipStr qName))
    | some ip =>
      let m := setReply req
      match ip.to4 with
      | some ipv4 =>
        (some { m with answer := m.answer ++ [RR.A ⟨q0.name, typeA, classINET, 60⟩ ipv4] },
         "Hosts", none)
      | none =>
        (some { m with answer := m.answer ++ [RR.AAAA ⟨q0.name, typeAAAA, classINET, 60⟩ ip] },
         "Hosts", none)
  | none => ruleStep env qName

/-- Method `(*Router).Route` minus the query-log emission: reject questionless
requests, otherwise delegate to the cascade and drop the provenance. -/
def route (env : RouterEnv) (req : Msg) : Option Msg × Option RouteErr :=
  if req.question.length = 0 then (none, some .noQuestion)
  else ((routeInternal env req).1, (routeInternal env req).2.2)

/-- C4: a query whose lowercased, trailing-dot-stripped name is a hosts
key gets, when the override literal parses, a synthesized single-answer
reply (A for IPv4, AAAA for IPv6, TTL 60, class IN, rcode NOERROR) with
provenance Hosts and no upstream contact (the race oracle is never
consulted); an unparseable literal is an immediate error with no
response. -/
theorem routeInternal_hosts (env : RouterEnv) (req : Msg) (q0 : Question)
    (rest : List Question) (ipStr : String)
    (hq : req.question = q0 :: rest)
    (hh : env.hosts (routeQName q0) = some ipStr) :
    (env.parseIP ipStr = none →
      routeInternal env req
        = (none, "Hosts", some (.invalidHostsEntry ipStr (routeQName q0))))
    ∧ (∀ ip ip4, env.parseIP ipStr = some ip → ip.to4 = some ip4 →
      routeInternal env req
        = (some { id := req.id, rcode := 0, question := [q0],
                  answer := [RR.A ⟨q0.name, typeA, classINET, 60⟩ ip4], extra := [] },
           "Hosts", none))
    ∧ (∀ ip, env.parseIP ipStr = some ip → ip.to4 = none →
      routeInternal env req
        = (some { id := req.id, rcode := 0, question := [q0],
                  answer := [RR.AAAA ⟨q0.name, typeAAAA, classINET, 60⟩ ip], extra := [] },
           "Hosts", none))
    ∧ (∀ race2, routeInternal { env with race := race2 } req = routeInternal env req) := by
  refine ⟨?_, ?_, ?_, ?_⟩
  · intro hp
    simp [routeInternal, hq, hh, hp]
  · intro ip ip4 hp h4
    simp [routeInternal, hq, hh, hp, h4, setReply]
  · intro ip hp h6
    simp [routeInternal, hq, hh, hp, h6, setReply]
  · intro race2
    simp only [routeInternal, hq, List.headD_cons, hh]

/-- Router environment for the hosts-branch witnesses. -/
def w4Env : RouterEnv :=
  { hosts := fun s =>
      if s = "foo.local" then some "10.0.0.1"
      else if s = "bad.local" then some "notanip"
      else none
    rules := fun _ => none
    regexRules := []
    siteCodes := fun _ => []
    ipCodes := fun _ => []
    parseIP := testParseIP
    race := fun _ => .error "unreachable" }

/-- Query for `foo.local.`. -/
def msgFoo : Msg :=
  { id := 3, rcode := 0, question := [⟨"foo.local.", 1, 1⟩], answer := [], extra := [] }

/-- Query for `bad.local.` whose hosts override is not an IP literal. -/
def msgBad : Msg :=
  { id := 4, rcode := 0, question := [⟨"bad.local.", 1, 1⟩], answer := [], extra := [] }

theorem routeInternal_hosts_witness :
    routeInternal w4Env msgFoo
      = (some { id := 3, rcode := 0, question := [⟨"foo.local.", 1, 1⟩],
                answer := [RR.A ⟨"foo.local.", typeA, classINET, 60⟩ ⟨[10, 0, 0, 1]⟩],
                extra := [] },
         "Hosts", none)
    ∧ routeInternal w4Env msgBad
      = (none, "Hosts", some (.invalidHostsEntry "notanip" "bad.local"))
    ∧ routeInternal { w4Env with race := fun _ => .ok msgFoo } msgFoo
        = routeInternal w4Env msgFoo :=
  ⟨(routeInternal_hosts w4Env msgFoo ⟨"foo.local.", 1, 1⟩ [] "10.0.0.1" rfl (by decide)).2.1
      ⟨[0, 0, 0, 0, 0, 0, 0, 0, 0, 0, 255, 255, 10, 0, 0, 1]⟩ ⟨[10, 0, 0, 1]⟩
      (by decide) (by decide),
   (routeInternal_hosts w4Env msgBad ⟨"bad.local.", 1, 1⟩ [] "notanip" rfl (by decide)).1
      (by decide),
   (routeInternal_hosts w4Env msgFoo ⟨"foo.local.", 1, 1⟩ [] "10.0.0.1" rfl (by decide)).2.2.2
      (fun _ => .ok msgFoo)⟩

/-- A response originating from one of the two pool races. -/
def RespFromRace (env : RouterEnv) (resp : Msg) : Prop :=
  ∃ p, env.race p = .ok resp

theorem raceStep_resp (env : RouterEnv) (pool : PoolTag) (prov : String) (resp : Msg)
    (h : (raceStep env pool prov).1 = some resp) : env.race pool = .ok resp := by
  unfold raceStep at h
  cases he : env.race pool with
  | ok r => rw [he] at h; simp at h; rw [h]
  | error e => rw [he] at h; simp at h

theorem geoIPStep_resp (env : RouterEnv) (resp : Msg)
    (h : (geoIPStep env).1 = some resp) : RespFromRace env resp := by
  cases he : env.race .overseas with
  | error e => simp [geoIPStep, he] at h
  | ok r =>
    simp only [geoIPStep, he] at h
    cases hf : firstAorAAAA r.answer with
    | none =>
      simp only [hf] at h
      simp at h
      exact ⟨.overseas, by rw [he, h]⟩
    | some ip =>
      simp only [hf] at h
      cases hcn : IsCNIP env ip with
      | true =>
        simp only [hcn, if_true] at h
        exact ⟨.cn, raceStep_resp env .cn _ resp h⟩
      | false =>
        simp only [hcn, Bool.false_eq_true, if_false] at h
        simp at h
        exact ⟨.overseas, by rw [he, h]⟩

theorem geoSiteStep_resp (env : RouterEnv) (qName : String) (resp : Msg)
    (h : (geoSiteStep env qName).1 = some resp) : RespFromRace env resp := by
  simp only [geoSiteStep] at h
  by_cases hg : LookupGeoSite env qName ≠ ""
  · rw [if_pos hg] at h
    by_cases hc : goToLower (LookupGeoSite env qName) = "cn"
    · rw [if_pos hc] at h
      exact ⟨.cn, raceStep_resp env .cn _ resp h⟩
    · rw [if_neg hc] at h
      exact ⟨.overseas, raceStep_resp env .overseas _ resp h⟩
  · rw [if_neg hg] at h
    exact geoIPStep_resp env resp h

theorem regexStep_resp (env : RouterEnv) (qName : String) (resp : Msg) :
    ∀ l, (regexStep env qName l).1 = some resp → RespFromRace env resp := by
  intro l
  induction l with
  | nil =>
    intro h
    exact geoSiteStep_resp env qName resp (by simpa [regexStep] using h)
  | cons rr rest ih =>
    intro h
    simp only [regexStep] at h
    cases hm : rr.matchString qName with
    | false =>
      simp only [hm, Bool.false_eq_true, if_false] at h
      exact ih h
    | true =>
      simp only [hm, if_true] at h
      by_cases hc : goToLower rr.target = "cn"
      · rw [if_pos hc] at h
        exact ⟨.cn, raceStep_resp env .cn _ resp h⟩
      · rw [if_neg hc] at h
        by_cases ho : goToLower rr.target = "overseas"
        · rw [if_pos ho] at h
          exact ⟨.overseas, raceStep_resp env .overseas _ resp h⟩
        · rw [if_neg ho] at h
          exact ih h

theorem ruleStep_resp (env : RouterEnv) (qName : String) (resp : Msg)
    (h : (ruleStep env qName).1 = some resp) : RespFromRace env resp := by
  simp only [ruleStep] at h
  cases hr : env.rules qName with
  | none =>
    simp only [hr] at h
    exact regexStep_resp env qName resp env.regexRules h
  | some rule =>
    simp only [hr] at h
    by_cases hc : goToLower rule = "cn"
    · rw [if_pos hc] at h
      exact ⟨.cn, raceStep_resp env .cn _ resp h⟩
    · rw [if_neg hc] at h
      by_cases ho : goToLower rule = "overseas"
      · rw [if_pos ho] at h
        exact ⟨.overseas, raceStep_resp env .overseas _ resp h⟩
      · rw [if_neg ho] at h
        exact regexStep_resp env qName resp env.regexRules h

/-- Every response the cascade returns is either a race winner or the
hosts-synthesized reply, whose id and question come from `SetReply`. -/
theorem routeInternal_resp_cases (env : RouterEnv) (req : Msg) (resp : Msg)
    (h : (routeInternal env req).1 = some resp) :
    RespFromRace env resp
    ∨ (resp.id = req.id ∧ resp.question = (setReply req).question) := by
  simp only [routeInternal] at h
  cases hh : env.hosts (routeQName (req.question.headD ⟨"", 0, 0⟩)) with
  | none =>
    simp only [hh] at h
    exact Or.inl (ruleStep_resp env _ resp h)
  | some ipStr =>
    simp only [hh] at h
    cases hp : env.parseIP ipStr with
    | none => simp [hp] at h
    | some ip =>
      simp only [hp] at h
      cases h4 : ip.to4 with
      | some ip4 =>
        simp only [h4, Option.some.injEq] at h
        right
        rw [← h]
        exact ⟨rfl, rfl⟩
      | none =>
        simp only [h4, Option.some.injEq] at h
        right
        rw [← h]
        exact ⟨rfl, rfl⟩

/-- C1 (amended): for a query with exactly one question, when every race
winner echoes the query id and question section, every response `route`
returns without error preserves both. (As literally stated over all
queries with at least one question the claim fails: `SetReply` keeps only
the FIRST question, see the counterexample.) -/
theorem route_preserves_id_and_question (env : RouterEnv) (req : Msg) (q0 : Question)
    (hq : req.question = [q0])
    (hrace : ∀ p m, env.race p = .ok m → m.id = req.id ∧ m.question = req.question) :
    ∀ resp, (route env req).1 = some resp →
      resp.id = req.id ∧ resp.question = req.question := by
  intro resp h
  simp only [route, hq] at h
  simp only [List.length_cons, List.length_nil] at h
  rw [if_neg (by omega)] at h
  rcases routeInternal_resp_cases env req resp h with ⟨p, hp⟩ | ⟨h1, h2⟩
  · exact hrace p resp hp
  · exact ⟨h1, by rw [h2]; simp [setReply, hq]⟩

/-- A two-question query hitting the hosts branch. -/
def msgTwoQ : Msg :=
  { id := 5, rcode := 0,
    question := [⟨"foo.local.", 1, 1⟩, ⟨"extra.example.", 28, 1⟩],
    answer := [], extra := [] }

/-- C1 as stated is false: a query with two questions answered by the
hosts branch gets a reply whose question section holds only the first
question, so R.question differs from Q.question (R.id is preserved). -/
theorem route_question_counterexample :
    (route w4Env msgTwoQ).1
      = some { id := 5, rcode := 0, question := [⟨"foo.local.", 1, 1⟩],
               answer := [RR.A ⟨"foo.local.", typeA, classINET, 60⟩ ⟨[10, 0, 0, 1]⟩],
               extra := [] }
    ∧ ¬ [Question.mk "foo.local." 1 1] = msgTwoQ.question := by
  constructor
  · decide
  · decide

/-- One-question query for the C1 witness. -/
def msgOneQ : Msg :=
  { id := 11, rcode := 0, question := [⟨"somewhere.example.", 1, 1⟩],
    answer := [], extra := [] }

/-- Race oracle response echoing `msgOneQ`. -/
def echoResp : Msg :=
  { id := 11, rcode := 0, question := [⟨"somewhere.example.", 1, 1⟩],
    answer := [], extra := [] }

/-- Environment whose every race echoes the id and question of `msgOneQ`. -/
def w1Env : RouterEnv :=
  { hosts := fun _ => none, rules := fun _ => none, regexRules := []
    siteCodes := fun _ => [], ipCodes := fun _ => []
    parseIP := testParseIP, race := fun _ => .ok echoResp }

theorem route_preserves_id_and_question_witness :
    (route w1Env msgOneQ).1 = some echoResp
    ∧ echoResp.id = msgOneQ.id ∧ echoResp.question = msgOneQ.question :=
  ⟨by decide,
   route_preserves_id_and_question w1Env msgOneQ ⟨"somewhere.example.", 1, 1⟩ rfl
     (fun p m hm => by
       simp only [w1Env] at hm
       simp only [Except.ok.injEq] at hm
       rw [← hm]
       exact ⟨rfl, rfl⟩)
     echoResp (by decide)⟩

theorem geoSiteScan_cn_or_empty (l : List String) :
    geoSiteScan l = "cn" ∨ geoSiteScan l = "" := by
  induction l with
  | nil => right; rfl
  | cons c rest ih =>
    by_cases h : goToLower c = "cn"
    · left; simp [geoSiteScan, h]
    · simpa [geoSiteScan, h] using ih

theorem geoSiteScan_eq_cn (l : List String)
    (h : ∃ c ∈ l, goToLower c = "cn") : geoSiteScan l = "cn" := by
  induction l with
  | nil => simp at h
  | cons c rest ih =>
    by_cases hc : goToLower c = "cn"
    · simp [geoSiteScan, hc]
    · simp only [geoSiteScan, hc, if_false]
      rcases h with ⟨c2, hmem, hlow⟩
      rcases List.mem_cons.1 hmem with rfl | hmem2
      · exact absurd hlow hc
      · exact ih ⟨c2, hmem2, hlow⟩

theorem geoSiteScan_eq_empty (l : List String)
    (h : ∀ c ∈ l, ¬ goToLower c = "cn") : geoSiteScan l = "" := by
  induction l with
  | nil => rfl
  | cons c rest ih =>
    have hc := h c (List.mem_cons_self c rest)
    simp only [geoSiteScan, hc, if_false]
    exact ih (fun c2 hm => h c2 (List.mem_cons_of_mem c hm))

theorem regexStep_no_match (env : RouterEnv) (qName : String) :
    ∀ l, (∀ rr ∈ l, rr.matchString qName = false) →
      regexStep env qName l = geoSiteStep env qName := by
  intro l
  induction l with
  | nil => intro _; rfl
  | cons rr rest ih =>
    intro h
    have hm := h rr (List.mem_cons_self rr rest)
    simp only [regexStep, hm, Bool.false_eq_true, if_false]
    exact ih (fun r2 hmem => h r2 (List.mem_cons_of_mem rr hmem))

/-- With hosts, exact rules and regex rules all missing, the cascade
reaches the GeoSite step. -/
theorem routeInternal_fallthrough (env : RouterEnv) (req : Msg) (q0 : Question)
    (rest : List Question)
    (hq : req.question = q0 :: rest)
    (hh : env.hosts (routeQName q0) = none)
    (hr : env.rules (routeQName q0) = none)
    (hreg : ∀ rr ∈ env.regexRules, rr.matchString (routeQName q0) = false) :
    routeInternal env req = geoSiteStep env (routeQName q0) := by
  simp only [routeInternal, hq, List.headD_cons, hh, ruleStep, hr]
  exact regexStep_no_match env _ env.regexRules hreg

theorem geoSiteStep_cn (env : RouterEnv) (qName : String)
    (h : geoSiteScan (env.siteCodes qName) = "cn") :
    geoSiteStep env qName = raceStep env .cn "GeoSite(CN)" := by
  have t1 : ¬ ("cn" : String) = "" := by decide
  have t2 : goToLower "cn" = "cn" := by decide
  simp [geoSiteStep, LookupGeoSite, h, t1, t2]

theorem geoSiteStep_empty (env : RouterEnv) (qName : String)
    (h : geoSiteScan (env.siteCodes qName) = "") :
    geoSiteStep env qName = geoIPStep env := by
  simp [geoSiteStep, LookupGeoSite, h]

theorem raceStep_prov (env : RouterEnv) (pool : PoolTag) (prov : String) :
    (raceStep env pool prov).2.1 = prov := by
  unfold raceStep
  cases env.race pool <;> rfl

theorem geoIPStep_prov (env : RouterEnv) :
    (geoIPStep env).2.1 = "GeoIP(Fail)" ∨ (geoIPStep env).2.1 = "GeoIP(CN)"
    ∨ (geoIPStep env).2.1 = "GeoIP(Overseas)" := by
  cases he : env.race .overseas with
  | error e => left; simp [geoIPStep, he]
  | ok r =>
    simp only [geoIPStep, he]
    cases hf : firstAorAAAA r.answer with
    | none => right; right; simp [hf]
    | some ip =>
      simp only [hf]
      cases hcn : IsCNIP env ip with
      | true => right; left; simp [hcn, raceStep_prov]
      | false => right; right; simp [hcn]

theorem geoSiteStep_not_overseas_prov (env : RouterEnv) (qName : String) :
    ¬ (geoSiteStep env qName).2.1 = "GeoSite(Overseas)" := by
  rcases geoSiteScan_cn_or_empty (env.siteCodes qName) with h | h
  · rw [geoSiteStep_cn env qName h, raceStep_prov]
    decide
  · rw [geoSiteStep_empty env qName h]
    rcases geoIPStep_prov env with h2 | h2 | h2 <;> rw [h2] <;> decide

theorem regexStep_not_overseas_prov (env : RouterEnv) (qName : String) :
    ∀ l, ¬ (regexStep env qName l).2.1 = "GeoSite(Overseas)" := by
  intro l
  induction l with
  | nil => exact geoSiteStep_not_overseas_prov env qName
  | cons rr rest ih =>
    simp only [regexStep]
    cases hm : rr.matchString qName with
    | false => simpa [hm] using ih
    | true =>
      simp only [hm, if_true]
      by_cases hc : goToLower rr.target = "cn"
      · rw [if_pos hc, raceStep_prov]; decide
      · rw [if_neg hc]
        by_cases ho : goToLower rr.target = "overseas"
        · rw [if_pos ho, raceStep_prov]; decide
        · rw [if_neg ho]; exact ih

theorem ruleStep_not_overseas_prov (env : RouterEnv) (qName : String) :
    ¬ (ruleStep env qName).2.1 = "GeoSite(Overseas)" := by
  simp only [ruleStep]
  cases hr : env.rules qName with
  | none => exact regexStep_not_overseas_prov env qName env.regexRules
  | some rule =>
    simp only
    by_cases hc : goToLower rule = "cn"
    · rw [if_pos hc, raceStep_prov]; decide
    · rw [if_neg hc]
      by_cases ho : goToLower rule = "overseas"
      · rw [if_pos ho, raceStep_prov]; decide
      · rw [if_neg ho]
        exact regexStep_not_overseas_prov env qName env.regexRules

theorem routeInternal_not_overseas_prov (env : RouterEnv) (req : Msg) :
    ¬ (routeInternal env req).2.1 = "GeoSite(Overseas)" := by
  simp only [routeInternal]
  cases hh : env.hosts (routeQName (req.question.headD ⟨"", 0, 0⟩)) with
  | none =>
    simp only [hh]
    exact ruleStep_not_overseas_prov env _
  | some ipStr =>
    simp only [hh]
    cases hp : env.parseIP ipStr with
    | none => simp only [hp]; decide
    | some ip =>
      simp only [hp]
      cases h4 : ip.to4 <;> simp only [h4] <;> decide

/-- C2 (amended): once hosts, exact rules and regex rules all miss,
a site-code set containing "cn" (case-insensitively) races the CN pool
under GeoSite(CN); a site-code set without "cn" — including any
non-empty set of non-cn codes — makes `LookupGeoSite` return the empty
string, so the query falls through to the GeoIP fallback instead of
racing the overseas pool under GeoSite(Overseas); indeed no execution of
the cascade ever carries the GeoSite(Overseas) provenance. -/
theorem geosite_routing (env : RouterEnv) (req : Msg) (q0 : Question)
    (rest : List Question)
    (hq : req.question = q0 :: rest)
    (hh : env.hosts (routeQName q0) = none)
    (hr : env.rules (routeQName q0) = none)
    (hreg : ∀ rr ∈ env.regexRules, rr.matchString (routeQName q0) = false) :
    ((∃ c ∈ env.siteCodes (routeQName q0), goToLower c = "cn") →
      routeInternal env req = raceStep env .cn "GeoSite(CN)")
    ∧ ((∀ c ∈ env.siteCodes (routeQName q0), ¬ goToLower c = "cn") →
      routeInternal env req = geoIPStep env)
    ∧ (∀ env2 req2, ¬ (routeInternal env2 req2).2.1 = "GeoSite(Overseas)") := by
  refine ⟨?_, ?_, fun env2 req2 => routeInternal_not_overseas_prov env2 req2⟩
  · intro h
    rw [routeInternal_fallthrough env req q0 rest hq hh hr hreg]
    exact geoSiteStep_cn env _ (geoSiteScan_eq_cn _ h)
  · intro h
    rw [routeInternal_fallthrough env req q0 rest hq hh hr hreg]
    exact geoSiteStep_empty env _ (geoSiteScan_eq_empty _ h)

/-- Answer of the overseas pool for `cdn.test.`: an A record pointing at a
CN-located address. -/
def c2Resp : Msg :=
  { id := 21, rcode := 0, question := [⟨"cdn.test.", 1, 1⟩],
    answer := [RR.A ⟨"cdn.test.", typeA, classINET, 300⟩ ⟨[114, 114, 114, 114]⟩],
    extra := [] }

/-- Answer of the CN pool for `cdn.test.`. -/
def c2RespCN : Msg :=
  { id := 21, rcode := 0, question := [⟨"cdn.test.", 1, 1⟩],
    answer := [RR.A ⟨"cdn.test.", typeA, classINET, 60⟩ ⟨[114, 114, 114, 115]⟩],
    extra := [] }

/-- Environment in which `cdn.test` belongs to a non-cn geosite list and
its overseas answer is a CN IP. -/
def c2Env : RouterEnv :=
  { hosts := fun _ => none
    rules := fun _ => none
    regexRules := []
    siteCodes := fun s => if s = "cdn.test" then ["us"] else []
    ipCodes := fun ip => if ip = ⟨[114, 114, 114, 114]⟩ then ["CN"] else []
    parseIP := testParseIP
    race := fun p => match p with
      | .overseas => .ok c2Resp
      | .cn => .ok c2RespCN }

/-- Query for `cdn.test.`. -/
def c2Msg : Msg :=
  { id := 21, rcode := 0, question := [⟨"cdn.test.", 1, 1⟩], answer := [], extra := [] }

/-- C2 as stated is false: `cdn.test` gets the non-empty, non-cn
site-code list ["us"], yet the router does not race the overseas pool
under GeoSite(Overseas) — it falls through to the GeoIP fallback, and
here even reroutes to the answer of the CN pool under GeoIP(CN). -/
theorem geosite_overseas_counterexample :
    c2Env.siteCodes "cdn.test" = ["us"]
    ∧ ¬ goToLower "us" = "cn"
    ∧ routeQName ⟨"cdn.test.", 1, 1⟩ = "cdn.test"
    ∧ routeInternal c2Env c2Msg = (some c2RespCN, "GeoIP(CN)", none)
    ∧ ¬ (routeInternal c2Env c2Msg).2.1 = "GeoSite(Overseas)"
    ∧ ¬ (routeInternal c2Env c2Msg).1 = some c2Resp := by
  refine ⟨by decide, by decide, by decide, by decide, by decide, by decide⟩

/-- Environment whose geosite data marks `shop.example` as cn. -/
def w2Env : RouterEnv :=
  { hosts := fun _ => none
    rules := fun _ => none
    regexRules := []
    siteCodes := fun s => if s = "shop.example" then ["geolocation", "CN"] else ["us"]
    ipCodes := fun _ => []
    parseIP := testParseIP
    race := fun p => match p with
      | .overseas => .error "overseas down"
      | .cn => .ok c2RespCN }

/-- Query for `shop.example.`. -/
def w2Msg : Msg :=
  { id := 31, rcode := 0, question := [⟨"shop.example.", 1, 1⟩], answer := [], extra := [] }

theorem geosite_routing_witness :
    routeInternal w2Env w2Msg = raceStep w2Env .cn "GeoSite(CN)"
    ∧ routeInternal c2Env c2Msg = geoIPStep c2Env
    ∧ ¬ (routeInternal c2Env c2Msg).2.1 = "GeoSite(Overseas)" :=
  ⟨(geosite_routing w2Env w2Msg ⟨"shop.example.", 1, 1⟩ [] rfl (by decide) (by decide)
      (by intro rr h; simp [w2Env] at h)).1
    ⟨"CN", by decide, by decide⟩,
   (geosite_routing c2Env c2Msg ⟨"cdn.test.", 1, 1⟩ [] rfl (by decide) (by decide)
      (by intro rr h; simp [c2Env] at h)).2.1
    (by decide),
   (geosite_routing c2Env c2Msg ⟨"cdn.test.", 1, 1⟩ [] rfl (by decide) (by decide)
      (by intro rr h; simp [c2Env] at h)).2.2 c2Env c2Msg⟩

/-- C3: at the GeoIP fallback step (hosts, rules, regex and geosite all
missed), the router first races the overseas pool; a failed first race
surfaces the wrapped GeoIPInitialFailed error with no response; a
success whose first A/AAAA answer address is a CN IP is discarded in
favour of the CN pool race result under GeoIP(CN); otherwise the
overseas response is returned unchanged under GeoIP(Overseas). -/
theorem geoip_fallback (env : RouterEnv) (req : Msg) (q0 : Question)
    (rest : List Question)
    (hq : req.question = q0 :: rest)
    (hh : env.hosts (routeQName q0) = none)
    (hr : env.rules (routeQName q0) = none)
    (hreg : ∀ rr ∈ env.regexRules, rr.matchString (routeQName q0) = false)
    (hsite : ∀ c ∈ env.siteCodes (routeQName q0), ¬ goToLower c = "cn") :
    (∀ e, env.race .overseas = .error e →
      routeInternal env req = (none, "GeoIP(Fail)", some (.geoIPInitialFailed e)))
    ∧ (∀ resp ip, env.race .overseas = .ok resp →
        firstAorAAAA resp.answer = some ip → IsCNIP env ip = true →
        routeInternal env req = raceStep env .cn "GeoIP(CN)")
    ∧ (∀ resp ip, env.race .overseas = .ok resp →
        firstAorAAAA resp.answer = some ip → IsCNIP env ip = false →
        routeInternal env req = (some resp, "GeoIP(Overseas)", none))
    ∧ (∀ resp, env.race .overseas = .ok resp →
        firstAorAAAA resp.answer = none →
        routeInternal env req = (some resp, "GeoIP(Overseas)", none)) := by
  have hft : routeInternal env req = geoIPStep env := by
    rw [routeInternal_fallthrough env req q0 rest hq hh hr hreg]
    exact geoSiteStep_empty env _ (geoSiteScan_eq_empty _ hsite)
  refine ⟨?_, ?_, ?_, ?_⟩
  · intro e he
    rw [hft]
    simp [geoIPStep, he]
  · intro resp ip he hf hcn
    rw [hft]
    simp only [geoIPStep, he, hf, hcn, if_true]
  · intro resp ip he hf hcn
    rw [hft]
    simp only [geoIPStep, he, hf, hcn, Bool.false_eq_true, if_false]
  · intro resp he hf
    rw [hft]
    simp only [geoIPStep, he, hf]

/-- Environment for the GeoIP-fallback witness whose overseas pool is
down. -/
def w3Env : RouterEnv :=
  { hosts := fun _ => none
    rules := fun _ => none
    regexRules := []
    siteCodes := fun _ => []
    ipCodes := fun ip => if ip = ⟨[114, 114, 114, 114]⟩ then ["CN"] else []
    parseIP := testParseIP
    race := fun p => match p with
      | .overseas => .error "timeout"
      | .cn => .ok c2RespCN }

theorem geoip_fallback_witness :
    routeInternal w3Env c2Msg
      = (none, "GeoIP(Fail)", some (.geoIPInitialFailed "timeout"))
    ∧ routeInternal c2Env c2Msg = raceStep c2Env .cn "GeoIP(CN)" :=
  ⟨(geoip_fallback w3Env c2Msg ⟨"cdn.test.", 1, 1⟩ [] rfl (by decide) (by decide)
      (by intro rr h; simp [w3Env] at h) (by decide)).1 "timeout" rfl,
   (geoip_fallback c2Env c2Msg ⟨"cdn.test.", 1, 1⟩ [] rfl (by decide) (by decide)
      (by intro rr h; simp [c2Env] at h) (by decide)).2.1 c2Resp ⟨[114, 114, 114, 114]⟩
      rfl (by decide) (by decide)⟩

/-- Outcome of one racing goroutine (`cl.Resolve(raceCtx, reqClone)`):
either a successful response delivered on the results channel, or an
error delivered on the errs channel. -/
inductive TaskOutcome where
  | ok (resp : Msg)
  | fail (e : String)
deriving DecidableEq, Repr

/-- Completion of one client task, with the time (milliseconds from race
start) at which the select loop can observe it. -/
structure TaskEvent where
  time : Nat
  outcome : TaskOutcome
deriving DecidableEq, Repr

/-- Result of `RaceResolve`, one constructor per return path.
`noUpstreams` is the empty-client-list error, `raceTimeout` the
5-second-select error, `allFailed` wraps the last-observed client error,
`ctxDone` the caller-context error, and `noResponse` the final
"no response received" error (dead code when every client delivers). -/
inductive RaceOutcome where
  | noUpstreams
  | ok (resp : Msg)
  | ctxDone
  | raceTimeout
  | allFailed (last : String)
  | noResponse
deriving DecidableEq, Repr

/-- The select loop of `RaceResolve`, iterated once per client: `now` is
the time at which the current select begins (the time the previous event
was consumed), `lastErr` the last client error observed so far, and the
list holds the still-undelivered task completions in the order the loop
observes them. Each iteration `time.After(5 * time.Second)` is a FRESH
timer, so the timeout fires at `now + 5000`, not at 5000: the ceiling
restarts on every observed event. A caller deadline (if any) beats the
other arms when it is due no later than both; within one select, an
available channel event beats the fresh timer unless the timer is
strictly earlier. -/
def raceLoop (ctxDeadline : Option Nat) : Nat → Option String → List TaskEvent → RaceOutcome
  | _, lastErr, [] =>
    match lastErr with
    | some e => .allFailed e
    | none => .noResponse
  | now, lastErr, ev :: rest =>
    let timerAt := now + 5000
    let ctxFired : Bool :=
      match ctxDeadline with
      | some dl => decide (dl ≤ ev.time) && decide (dl ≤ timerAt)
      | none => false
    if ctxFired then .ctxDone
    else if timerAt < ev.time then .raceTimeout
    else
      match ev.outcome with
      | .ok resp => .ok resp
      | .fail e => raceLoop ctxDeadline ev.time (some e) rest

/-- Function `client.RaceResolve`: empty client list short-circuits with the
no-upstreams error before anything is spawned; otherwise the select loop
runs over the (time-ordered) trace of task completions, one iteration
per client. -/
def RaceResolve (ctxDeadline : Option Nat) (events : List TaskEvent) : RaceOutcome :=
  if events.length = 0 then .noUpstreams
  else raceLoop ctxDeadline 0 none events

/-- The trace is time-ordered and every event lands within the fresh
5-second window of its select round (so neither the timer nor, in these
theorems, a caller deadline can fire first). -/
def gapsOK : Nat → List TaskEvent → Bool
  | _, [] => true
  | now, ev :: rest => decide (now ≤ ev.time) && decide (ev.time < now + 5000) && gapsOK ev.time rest

/-- Every event in the trace is a failure. -/
def allFail : List TaskEvent → Bool
  | [] => true
  | ev :: rest =>
    (match ev.outcome with
     | .fail _ => true
     | .ok _ => false) && allFail rest

/-- The error of the last event of the trace, when it is a failure. -/
def lastEventErr (l : List TaskEvent) : Option String :=
  match l.getLast? with
  | some ev =>
    match ev.outcome with
    | .fail e => some e
    | .ok _ => none
  | none => none

theorem raceLoop_success (resp : Msg) :
    ∀ pre : List TaskEvent, ∀ now : Nat, ∀ lastErr : Option String,
    ∀ ev : TaskEvent, ∀ rest : List TaskEvent,
    gapsOK now (pre ++ ev :: rest) = true → allFail pre = true →
    ev.outcome = .ok resp →
    raceLoop none now lastErr (pre ++ ev :: rest) = .ok resp := by
  intro pre
  induction pre with
  | nil =>
    intro now lastErr ev rest hg _ hok
    simp only [List.nil_append] at hg ⊢
    simp only [gapsOK, Bool.and_assoc, Bool.and_eq_true, decide_eq_true_eq] at hg
    simp only [raceLoop]
    rw [if_neg (by simp), if_neg (by omega)]
    rw [hok]
  | cons p ps ih =>
    intro now lastErr ev rest hg hfail
    intro hok
    simp only [List.cons_append, gapsOK, Bool.and_assoc, Bool.and_eq_true,
      decide_eq_true_eq] at hg
    simp only [allFail, Bool.and_eq_true] at hfail
    simp only [List.cons_append, raceLoop]
    rw [if_neg (by simp), if_neg (by omega)]
    cases hp : p.outcome with
    | ok r => rw [hp] at hfail; simp at hfail
    | fail e =>
      exact ih p.time (some e) ev rest hg.2.2 hfail.2 hok

theorem raceLoop_allFailed :
    ∀ events : List TaskEvent, ∀ now : Nat, ∀ lastErr : Option String, ∀ e : String,
    gapsOK now events = true → allFail events = true → lastEventErr events = some e →
    raceLoop none now lastErr events = .allFailed e := by
  intro events
  induction events with
  | nil => intro now lastErr e _ _ hl; simp [lastEventErr] at hl
  | cons ev rest ih =>
    intro now lastErr e hg hfail hl
    simp only [gapsOK, Bool.and_assoc, Bool.and_eq_true, decide_eq_true_eq] at hg
    simp only [allFail, Bool.and_eq_true] at hfail
    cases hp : ev.outcome with
    | ok r => rw [hp] at hfail; simp at hfail
    | fail e0 =>
      simp only [raceLoop]
      rw [if_neg (by simp), if_neg (by omega), hp]
      cases rest with
      | nil =>
        simp only [lastEventErr, List.getLast?_singleton, hp, Option.some.injEq] at hl
        rw [← hl]
        rfl
      | cons ev2 rest2 =>
        refine ih ev.time (some e0) e hg.2.2 hfail.2 ?_
        simpa [lastEventErr, List.getLast?_cons_cons] using hl

/-- C5: the race coordinator returns the no-upstreams error on an empty
client list before spawning anything; when some task succeeds and is
observed (its predecessors in the trace all being failures that land in
their select windows), the race returns that response with no error —
sibling failures and cancellations never surface; and when every task
fails, it returns AllUpstreamsFailed wrapping the last-observed error. -/
theorem race_resolve_outcomes :
    (∀ d : Option Nat, RaceResolve d [] = .noUpstreams)
    ∧ (∀ (pre : List TaskEvent) (ev : TaskEvent) (rest : List TaskEvent) (resp : Msg),
        gapsOK 0 (pre ++ ev :: rest) = true → allFail pre = true →
        ev.outcome = .ok resp →
        RaceResolve none (pre ++ ev :: rest) = .ok resp)
    ∧ (∀ (events : List TaskEvent) (e : String),
        ¬ events.length = 0 → gapsOK 0 events = true → allFail events = true →
        lastEventErr events = some e →
        RaceResolve none events = .allFailed e) := by
  refine ⟨fun _ => rfl, ?_, ?_⟩
  · intro pre ev rest resp hg hfail hok
    unfold RaceResolve
    rw [if_neg (by simp)]
    exact raceLoop_success resp pre 0 none ev rest hg hfail hok
  · intro events e hne hg hfail hl
    unfold RaceResolve
    rw [if_neg hne]
    exact raceLoop_allFailed events 0 none e hg hfail hl

/-- Response used by the race witnesses. -/
def wraceResp : Msg :=
  { id := 51, rcode := 0, question := [⟨"race.example.", 1, 1⟩], answer := [], extra := [] }

theorem race_resolve_outcomes_witness :
    RaceResolve (some 9999) [] = .noUpstreams
    ∧ RaceResolve none [⟨100, .fail "refused"⟩, ⟨150, .ok wraceResp⟩] = .ok wraceResp
    ∧ RaceResolve none [⟨100, .fail "refused"⟩, ⟨200, .fail "timed out"⟩]
        = .allFailed "timed out" :=
  ⟨race_resolve_outcomes.1 (some 9999),
   race_resolve_outcomes.2.1 [⟨100, .fail "refused"⟩] ⟨150, .ok wraceResp⟩ [] wraceResp
     (by decide) (by decide) rfl,
   race_resolve_outcomes.2.2 [⟨100, .fail "refused"⟩, ⟨200, .fail "timed out"⟩] "timed out"
     (by decide) (by decide) (by decide) (by decide)⟩

/-- The time of the last event of the trace (`now` for an empty trace):
the moment the final select round of the prefix began. -/
def lastTimeD : Nat → List TaskEvent → Nat
  | now, [] => now
  | _, ev :: rest => lastTimeD ev.time rest

theorem raceLoop_timeout :
    ∀ pre : List TaskEvent, ∀ now : Nat, ∀ lastErr : Option String,
    ∀ ev : TaskEvent, ∀ rest : List TaskEvent,
    gapsOK now pre = true → allFail pre = true →
    lastTimeD now pre + 5000 < ev.time →
    raceLoop none now lastErr (pre ++ ev :: rest) = .raceTimeout := by
  intro pre
  induction pre with
  | nil =>
    intro now lastErr ev rest _ _ hlate
    simp only [lastTimeD] at hlate
    simp only [List.nil_append, raceLoop]
    rw [if_neg (by simp), if_pos hlate]
  | cons p ps ih =>
    intro now lastErr ev rest hg hfail hlate
    simp only [gapsOK, Bool.and_assoc, Bool.and_eq_true, decide_eq_true_eq] at hg
    simp only [allFail, Bool.and_eq_true] at hfail
    simp only [lastTimeD] at hlate
    simp only [List.cons_append, raceLoop]
    rw [if_neg (by simp), if_neg (by omega)]
    cases hp : p.outcome with
    | ok r => rw [hp] at hfail; simp at hfail
    | fail e => exact ih p.time (some e) ev rest hg.2.2 hfail.2 hlate

theorem raceLoop_no_timeout :
    ∀ events : List TaskEvent, ∀ now : Nat, ∀ lastErr : Option String,
    gapsOK now events = true →
    ¬ raceLoop none now lastErr events = .raceTimeout := by
  intro events
  induction events with
  | nil =>
    intro now lastErr _
    cases lastErr <;> simp [raceLoop]
  | cons ev rest ih =>
    intro now lastErr hg
    simp only [gapsOK, Bool.and_assoc, Bool.and_eq_true, decide_eq_true_eq] at hg
    simp only [raceLoop]
    rw [if_neg (by simp), if_neg (by omega)]
    cases ev.outcome with
    | ok r => simp
    | fail e => exact ih ev.time (some e) hg.2.2

/-- C6 (amended): the 5-second ceiling is NOT measured once from race
start — `time.After(5*time.Second)` is re-created in every select round,
so the window restarts at each observed client failure. RaceTimeout is
returned exactly when some round sees no event within 5 s of the start
of that round (first conjunct: the next event lands beyond the window opened by
the last observed failure); conversely a race whose successive
inter-event gaps all stay below 5 s never times out, no matter how long
after race start the success arrives (second conjunct). -/
theorem race_timeout_restarts :
    (∀ (pre : List TaskEvent) (ev : TaskEvent) (rest : List TaskEvent),
      allFail pre = true → gapsOK 0 pre = true →
      lastTimeD 0 pre + 5000 < ev.time →
      RaceResolve none (pre ++ ev :: rest) = .raceTimeout)
    ∧ (∀ events : List TaskEvent, gapsOK 0 events = true →
      ¬ RaceResolve none events = .raceTimeout) := by
  constructor
  · intro pre ev rest hfail hg hlate
    unfold RaceResolve
    rw [if_neg (by simp)]
    exact raceLoop_timeout pre 0 none ev rest hg hfail hlate
  · intro events hg
    unfold RaceResolve
    by_cases hne : events.length = 0
    · rw [if_pos hne]; simp
    · rw [if_neg hne]
      exact raceLoop_no_timeout events 0 none hg

/-- Response delivered 8 s after race start. -/
def c6Resp : Msg :=
  { id := 41, rcode := 0, question := [⟨"slow.example.", 1, 1⟩], answer := [], extra := [] }

/-- C6 as stated is false: with a client failure at 4 s and a success at
8 s (caller deadline absent), no success arrives within 5 s of race
start, yet the race returns the 8-second success instead of RaceTimeout —
the failure restarted the 5-second timer. -/
theorem race_timeout_counterexample :
    RaceResolve none [⟨4000, .fail "first errored"⟩, ⟨8000, .ok c6Resp⟩] = .ok c6Resp
    ∧ ¬ RaceResolve none [⟨4000, .fail "first errored"⟩, ⟨8000, .ok c6Resp⟩] = .raceTimeout
    ∧ 5000 < 8000 :=
  ⟨by decide, by decide, by decide⟩

theorem race_timeout_restarts_witness :
    RaceResolve none [⟨4000, .fail "e1"⟩, ⟨9500, .ok c6Resp⟩] = .raceTimeout
    ∧ ¬ RaceResolve none [⟨4000, .fail "e1"⟩, ⟨8000, .ok c6Resp⟩] = .raceTimeout :=
  ⟨race_timeout_restarts.1 [⟨4000, .fail "e1"⟩] ⟨9500, .ok c6Resp⟩ []
     (by decide) (by decide) (by decide),
   race_timeout_restarts.2 [⟨4000, .fail "e1"⟩, ⟨8000, .ok c6Resp⟩] (by decide)⟩

/-- The constant 2^63, as an integer literal (bound of Go int64). -/
def two63 : Int := 9223372036854775808

/-- The constant 2^64, as an integer literal. -/
def two64 : Int := 18446744073709551616

/-- Go int64 wrap-around of an unbounded integer. -/
def i64 (x : Int) : Int := (x + two63) % two64 - two63

/-- The value fits in int64 (no wrap-around). -/
def InRange64 (x : Int) : Prop := -two63 ≤ x ∧ x < two63

instance (x : Int) : Decidable (InRange64 x) :=
  inferInstanceAs (Decidable (_ ∧ _))

theorem i64_eq_self (x : Int) (h : InRange64 x) : i64 x = x := by
  obtain ⟨h1, h2⟩ := h
  unfold two63 at h1 h2
  unfold i64 two63 two64
  rw [Int.emod_eq_of_lt (by omega) (by omega)]
  omega

/-- The four counters of `client.StatsClient` (Go int64 fields). -/
structure UpstreamStats where
  totalQueries : Int
  totalErrors : Int
  totalCanceled : Int
  totalDuration : Int
deriving DecidableEq, Repr

/-- A Go error as the stats decorator classifies it:
`errors.Is(err, context.Canceled)` and
`errors.Is(err, context.DeadlineExceeded)` on its wrap chain. -/
structure GoError where
  isCanceled : Bool
  isDeadlineExceeded : Bool
  msg : String
deriving DecidableEq, Repr

/-- Method `(*StatsClient).Resolve` (internal/client/stats.go): `result` is the
return value of the wrapped client (response, error) and `durationMicros` the
measured elapsed microseconds. Under the lock: `TotalQueries++`,
`TotalDuration += duration`, then exactly one of `TotalCanceled++`
(cancellation or deadline error) or `TotalErrors++` (any other error),
or neither on success; the wrapped result is returned unchanged. -/
def statsResolve (s : UpstreamStats) (result : Option Msg × Option GoError)
    (durationMicros : Int) : UpstreamStats × (Option Msg × Option GoError) :=
  let s1 := { s with totalQueries := i64 (s.totalQueries + 1)
                     totalDuration := i64 (s.totalDuration + durationMicros) }
  let s2 :=
    match result.2 with
    | some e =>
      if e.isCanceled || e.isDeadlineExceeded then
        { s1 with totalCanceled := i64 (s1.totalCanceled + 1) }
      else
        { s1 with totalErrors := i64 (s1.totalErrors + 1) }
    | none => s1
  (s2, result)

/-- The `avg_duration_ms` field of `(*StatsClient).GetStats`: Go int64
division truncates toward zero, hence `Int.tdiv`. -/
def getStatsAvg (s : UpstreamStats) : Int :=
  if 0 < s.totalQueries then Int.tdiv (Int.tdiv s.totalDuration s.totalQueries) 1000 else 0

/-- C9: the stats decorator propagates the result of the wrapped client
unchanged and, absent int64 wrap-around, bumps total_queries by one,
adds the measured microseconds to the cumulative duration, bumps
total_cancellations exactly on cancellation/deadline errors and
total_errors exactly on other errors (successes bump neither), and the
avg_duration_ms of the snapshot is total_duration / total_queries / 1000,
zero when no queries were counted. -/
theorem stats_resolve_spec (s : UpstreamStats) (result : Option Msg × Option GoError)
    (d : Int)
    (hq : InRange64 (s.totalQueries + 1))
    (hd : InRange64 (s.totalDuration + d))
    (he : InRange64 (s.totalErrors + 1))
    (hc : InRange64 (s.totalCanceled + 1)) :
    (statsResolve s result d).2 = result
    ∧ (statsResolve s result d).1.totalQueries = s.totalQueries + 1
    ∧ (statsResolve s result d).1.totalDuration = s.totalDuration + d
    ∧ (∀ e, result.2 = some e → (e.isCanceled || e.isDeadlineExceeded) = true →
        (statsResolve s result d).1.totalCanceled = s.totalCanceled + 1
        ∧ (statsResolve s result d).1.totalErrors = s.totalErrors)
    ∧ (∀ e, result.2 = some e → (e.isCanceled || e.isDeadlineExceeded) = false →
        (statsResolve s result d).1.totalErrors = s.totalErrors + 1
        ∧ (statsResolve s result d).1.totalCanceled = s.totalCanceled)
    ∧ (result.2 = none →
        (statsResolve s result d).1.totalErrors = s.totalErrors
        ∧ (statsResolve s result d).1.totalCanceled = s.totalCanceled)
    ∧ (∀ st : UpstreamStats, 0 < st.totalQueries →
        getStatsAvg st = Int.tdiv (Int.tdiv st.totalDuration st.totalQueries) 1000)
    ∧ (∀ st : UpstreamStats, st.totalQueries = 0 → getStatsAvg st = 0) := by
  refine ⟨rfl, ?_, ?_, ?_, ?_, ?_, ?_, ?_⟩
  · cases hr : result.2 with
    | none => simp [statsResolve, hr, i64_eq_self _ hq]
    | some e =>
      cases hb : (e.isCanceled || e.isDeadlineExceeded) <;>
        simp [statsResolve, hr, hb, i64_eq_self _ hq]
  · cases hr : result.2 with
    | none => simp [statsResolve, hr, i64_eq_self _ hd]
    | some e =>
      cases hb : (e.isCanceled || e.isDeadlineExceeded) <;>
        simp [statsResolve, hr, hb, i64_eq_self _ hd]
  · intro e hr hb
    constructor <;> simp [statsResolve, hr, hb, i64_eq_self _ hc]
  · intro e hr hb
    constructor <;> simp [statsResolve, hr, hb, i64_eq_self _ he]
  · intro hr
    constructor <;> simp [statsResolve, hr]
  · intro st h
    simp [getStatsAvg, h]
  · intro st h
    simp [getStatsAvg, h]

theorem stats_resolve_spec_witness :
    (statsResolve ⟨0, 0, 0, 0⟩ (some wraceResp, none) 1500).1.totalQueries = 1
    ∧ (statsResolve ⟨0, 0, 0, 0⟩ (some wraceResp, none) 1500).1.totalErrors = 0
    ∧ (statsResolve ⟨0, 0, 0, 0⟩ (none, some ⟨true, false, "context canceled"⟩) 700).1.totalCanceled = 1
    ∧ (statsResolve ⟨0, 0, 0, 0⟩ (none, some ⟨false, false, "dial refused"⟩) 700).1.totalErrors = 1
    ∧ getStatsAvg ⟨2, 0, 0, 5000⟩ = 2
    ∧ getStatsAvg ⟨0, 0, 0, 0⟩ = 0 :=
  ⟨((stats_resolve_spec ⟨0, 0, 0, 0⟩ (some wraceResp, none) 1500
      (by decide) (by decide) (by decide) (by decide)).2.1).trans (by decide),
   ((stats_resolve_spec ⟨0, 0, 0, 0⟩ (some wraceResp, none) 1500
      (by decide) (by decide) (by decide) (by decide)).2.2.2.2.2.1 rfl).1,
   (((stats_resolve_spec ⟨0, 0, 0, 0⟩ (none, some ⟨true, false, "context canceled"⟩) 700
      (by decide) (by decide) (by decide) (by decide)).2.2.2.1
      ⟨true, false, "context canceled"⟩ rfl rfl).1).trans (by decide),
   (((stats_resolve_spec ⟨0, 0, 0, 0⟩ (none, some ⟨false, false, "dial refused"⟩) 700
      (by decide) (by decide) (by decide) (by decide)).2.2.2.2.1
      ⟨false, false, "dial refused"⟩ rfl rfl).1).trans (by decide),
   ((stats_resolve_spec ⟨2, 0, 0, 5000⟩ (none, none) 0
      (by decide) (by decide) (by decide) (by decide)).2.2.2.2.2.2.1
      ⟨2, 0, 0, 5000⟩ (by decide)).trans (by decide),
   (stats_resolve_spec ⟨0, 0, 0, 0⟩ (none, none) 0
      (by decide) (by decide) (by decide) (by decide)).2.2.2.2.2.2.2
      ⟨0, 0, 0, 0⟩ rfl⟩
